import Mathlib

/-
  Verification of the command-execution and filesystem helpers of
  afsutil/system.py.

  The Python functions are shallowly embedded as pure Lean functions.
  Effects are made explicit:
  - the result of each spawned process attempt is an `Attempt` value, and a
    command is modelled as a function from the attempt number to its outcome;
  - the side effects of `run` (sleeping, invoking the cleanup hook, spawning)
    are recorded in an event trace;
  - the filesystem is a map from path to entry, and symlink resolution is
    bounded by the OS symlink-loop limit (40 on Linux), after which the
    underlying stat fails and the path reads as nonexistent;
  - raised exceptions become `Except.error` values.
-/

namespace AfsUtil

/-- Outcome of one spawned process attempt: exit code and the fully captured
stdout and stderr byte strings. -/
structure Attempt where
  rc : Int
  out : String
  err : String
deriving DecidableEq

/-- The data carried by the CommandFailed exception raised by `run`:
program path, full argument vector, and the exit code and captured output
of the attempt that raised it. -/
structure CommandFailed where
  cmd : String
  args : List String
  code : Int
  out : String
  err : String
deriving DecidableEq

/-- Observable side effects of `run`, in the order they happen. -/
inductive Event where
  | sleep (seconds : Nat)
  | cleanup
  | spawn (cmd : String) (args : List String)
deriving DecidableEq

/-- The events the loop body performs before spawning attempt `i`:
nothing before the first attempt, otherwise a sleep of `wait` seconds
followed by the cleanup hook when one is set.  This mirrors the
`if attempt > 0` block at the top of the loop in `run`. -/
def preEvents (wait : Nat) (cl : Bool) (i : Nat) : List Event :=
  if i = 0 then [] else Event.sleep wait :: (if cl then [Event.cleanup] else [])

/-- The retry loop of `run`: `for attempt in xrange(0, retry + 1)`.
`rem` is the number of iterations still allowed; `run` always starts it at
`retry + 1 ≥ 1`, so the `rem = 0` equation is never reached from `run`
(it exists only to make the recursion total).  On a zero exit code the
captured stdout is returned; when the last allowed attempt exits non-zero
the CommandFailed data of that attempt is raised. -/
def runLoop (cmd : String) (args : List String) (wait : Nat) (cl : Bool)
    (ex : Nat → Attempt) : Nat → Nat → List Event × Except CommandFailed String
  | _, 0 => ([], Except.error (CommandFailed.mk cmd args 1 "" ""))
  | attempt, rem + 1 =>
    let pre := preEvents wait cl attempt
    let a := ex attempt
    if a.rc = 0 then
      (pre ++ [Event.spawn cmd args], Except.ok a.out)
    else if rem = 0 then
      (pre ++ [Event.spawn cmd args],
       Except.error (CommandFailed.mk cmd args a.rc a.out a.err))
    else
      let r := runLoop cmd args wait cl ex (attempt + 1) rem
      (pre ++ [Event.spawn cmd args] ++ r.1, r.2)

/-- `run(cmd, args, quiet, retry, wait, cleanup)` from system.py.
The program name is inserted at position 0 of the argument vector, and the
loop runs attempts `0 .. retry`.  `ex` gives the outcome of each attempt. -/
def run (cmd : String) (args : List String) (retry wait : Nat) (cl : Bool)
    (ex : Nat → Attempt) : List Event × Except CommandFailed String :=
  runLoop cmd (cmd :: args) wait cl ex 0 (retry + 1)

def isSpawnEv : Event → Bool
  | Event.spawn _ _ => true
  | _ => false

def isSleepEv : Event → Bool
  | Event.sleep _ => true
  | _ => false

def isCleanupEv : Event → Bool
  | Event.cleanup => true
  | _ => false

/-- Number of process spawns in a trace. -/
def countSpawn (es : List Event) : Nat := es.countP isSpawnEv

/-- Number of sleeps in a trace. -/
def countSleep (es : List Event) : Nat := es.countP isSleepEv

/-- Number of cleanup-hook invocations in a trace. -/
def countCleanup (es : List Event) : Nat := es.countP isCleanupEv

/-- The event trace produced by attempts `first, first+1, ..., first+k`,
each attempt preceded by its `preEvents` block. -/
def traceFrom (cmd : String) (args : List String) (wait : Nat) (cl : Bool) :
    Nat → Nat → List Event
  | first, 0 => preEvents wait cl first ++ [Event.spawn cmd args]
  | first, k + 1 =>
    (preEvents wait cl first ++ [Event.spawn cmd args]) ++
      traceFrom cmd args wait cl (first + 1) k

/-- A command that exits non-zero on every attempt. -/
def exFail1 : Nat → Attempt := fun _ => Attempt.mk 2 "o1" "e1"

/-- A command that fails on attempts 0 and 1 and succeeds on attempt 2. -/
def exOk2 : Nat → Attempt :=
  fun i => if i < 2 then Attempt.mk 1 "bad" "be" else Attempt.mk 0 "good" "ge"

/-- A command that fails on attempt 0 and succeeds on attempt 1. -/
def exOk3 : Nat → Attempt :=
  fun i => if i < 1 then Attempt.mk 7 "x" "y" else Attempt.mk 0 "stdout3" "stderr3"

/-- A command that fails on attempt 0 and succeeds on attempt 1. -/
def exOk4 : Nat → Attempt :=
  fun i => if i < 1 then Attempt.mk 1 "b4" "eb4" else Attempt.mk 0 "g4" "eg4"

/-- A command that exits non-zero on every attempt. -/
def exFail5 : Nat → Attempt := fun _ => Attempt.mk 3 "o3" "e3"

/-- A command succeeding at once with stderr "errA". -/
def exErrA : Nat → Attempt := fun _ => Attempt.mk 0 "out" "errA"

/-- A command succeeding at once with stderr "errB". -/
def exErrB : Nat → Attempt := fun _ => Attempt.mk 0 "out" "errB"

/-
  `which(program, extra_paths, raise_errors)` from system.py.

  The filesystem facts it consults are abstracted as `FSx`:
  `isfile p` is os.path.isfile, `access_x p` is os.access(p, os.X_OK),
  and `path_env` is os.environ[PATH], split on the separator `:`.
-/

/-- The filesystem and environment facts consulted by `which`. -/
structure FSx where
  isfile : String → Bool
  access_x : String → Bool
  path_env : String

/-- The double-quote character, written by code point to keep it out of
string literals. -/
def quoteChar : Char := Char.ofNat 34

/-- Python `path.strip(quote)`: remove all leading and trailing double
quotes. -/
def stripQuotes (s : String) : String :=
  String.mk (((s.data.dropWhile (fun c => c = quoteChar)).reverse.dropWhile
    (fun c => c = quoteChar)).reverse)

/-- Whether a string begins with the path separator. -/
def headIsSlash (s : String) : Bool :=
  match s.data with
  | c :: _ => c = '/'
  | [] => false

/-- Whether a string ends with the path separator. -/
def lastIsSlash (s : String) : Bool :=
  decide (s.data.getLast? = some '/')

/-- `os.path.join(dir, p)` for the shapes that occur here: an absolute `p`
wins; an empty `dir` contributes nothing; otherwise a single separator is
inserted unless `dir` already ends with one. -/
def osPathJoin (dir p : String) : String :=
  if headIsSlash p then p
  else if dir = "" then p
  else if lastIsSlash dir then dir ++ p
  else dir ++ "/" ++ p

/-- The per-directory test of the search loop in `which`: strip quotes
from the path entry, join it with the program name, and test
`os.path.isfile(fpath) and os.access(fpath, os.X_OK)`. -/
def execCandidate (fs : FSx) (program d : String) : Bool :=
  fs.isfile (osPathJoin (stripQuotes d) program) &&
    fs.access_x (osPathJoin (stripQuotes d) program)

/-- The `for path in paths` loop of `which`, followed by the
`if raise_errors: raise` and the final `return None`.  `allPaths` is the
unmodified list used in the error message. -/
def whichSearch (fs : FSx) (program : String) (allPaths : List String)
    (raise_errors : Bool) : List String → Except String (Option String)
  | [] =>
    if raise_errors then
      Except.error ("Could not find " ++ program ++ " in paths " ++
        String.intercalate "," allPaths)
    else Except.ok none
  | p :: rest =>
    if execCandidate fs program p then
      Except.ok (some (osPathJoin (stripQuotes p) program))
    else whichSearch fs program allPaths raise_errors rest

/-- `which(program, extra_paths, raise_errors)`.  `os.path.split` yields a
nonempty directory part exactly when the input contains a separator, which
selects the explicit-path branch; otherwise PATH is split on `:`, the
extra paths are appended, and the directories are searched in order. -/
def which (fs : FSx) (program : String) (extra_paths : List String)
    (raise_errors : Bool) : Except String (Option String) :=
  if program.contains '/' then
    if fs.isfile program && fs.access_x program then Except.ok (some program)
    else if raise_errors then
      Except.error ("Program " ++ program ++ " is not an executable file.")
    else Except.ok none
  else
    whichSearch fs program (fs.path_env.splitOn ":" ++ extra_paths) raise_errors
      (fs.path_env.splitOn ":" ++ extra_paths)

/-- The PathFinder contract, written from the words of the specification:
an input with a directory separator is returned unchanged when it is an
existing executable file and absent otherwise (or the call fails in strict
mode); an input without a separator is resolved against the inherited
search-path list concatenated with the extra paths, each entry stripped of
surrounding quote characters, taking the first directory holding an
executable file of that name, absent (or a strict-mode failure) if none. -/
def resolveSpec (fs : FSx) (program : String) (extra_paths : List String)
    (strict : Bool) : Except Unit (Option String) :=
  if program.contains '/' then
    if fs.isfile program && fs.access_x program then Except.ok (some program)
    else if strict then Except.error () else Except.ok none
  else
    match (fs.path_env.splitOn ":" ++ extra_paths).find?
        (fun d => execCandidate fs program d) with
    | some d => Except.ok (some (osPathJoin (stripQuotes d) program))
    | none => if strict then Except.error () else Except.ok none

/-
  The filesystem model shared by `symlink` and `_so_symlinks`.
-/

/-- A filesystem entry: a regular file, a directory, or a symbolic link
holding its target path. -/
inductive Ent where
  | file
  | dir
  | link (target : String)
deriving DecidableEq

/-- A filesystem: a map from path to entry. -/
def FS : Type := String → Option Ent

/-- Resolve a path through symlinks, as `stat` does, with bounded fuel:
when the chain is longer than the fuel the lookup fails (ELOOP) and the
path reads as nonexistent. -/
def resolveEnt (fs : FS) : Nat → String → Option Ent
  | 0, _ => none
  | fuel + 1, p =>
    match fs p with
    | some (Ent.link t) => resolveEnt fs fuel t
    | e => e

/-- The Linux symlink-resolution limit used by stat. -/
def symloopMax : Nat := 40

/-- `os.path.isfile`: follows symlinks. -/
def isfileFS (fs : FS) (p : String) : Bool :=
  decide (resolveEnt fs symloopMax p = some Ent.file)

/-- `os.path.isdir`: follows symlinks. -/
def isdirFS (fs : FS) (p : String) : Bool :=
  decide (resolveEnt fs symloopMax p = some Ent.dir)

/-- `os.path.exists`: follows symlinks, so a broken symlink does not
exist. -/
def existsFS (fs : FS) (p : String) : Bool :=
  (resolveEnt fs symloopMax p).isSome

/-- `os.path.islink`: does not follow symlinks. -/
def islinkFS (fs : FS) (p : String) : Bool :=
  match fs p with
  | some (Ent.link _) => true
  | _ => false

/-- `os.remove`. -/
def fsRemove (fs : FS) (p : String) : FS :=
  fun q => if q = p then none else fs q

/-- Create or overwrite the entry at `p`. -/
def fsSet (fs : FS) (p : String) (e : Ent) : FS :=
  fun q => if q = p then some e else fs q

/-- `symlink(src, dst)` from system.py: fail unless `src` is an existing
regular file (after following links); fail when `dst` exists and is not a
symlink; remove `dst` when it is a symlink; then `os.symlink(src, dst)`. -/
def symlink (fs : FS) (src dst : String) : Except String FS :=
  if isfileFS fs src = false then
    Except.error ("Failed to make symlink: src " ++ src ++ " not found")
  else if existsFS fs dst && !islinkFS fs dst then
    Except.error ("Failed to make symlink: dst " ++ dst ++ " exists")
  else
    let fs1 := if islinkFS fs dst then fsRemove fs dst else fs
    Except.ok (fsSet fs1 dst (Ent.link src))

/-- Two calls of `symlink` with the same arguments, the second on the
filesystem produced by the first. -/
def symlinkTwice (fs : FS) (src dst : String) : Except String FS :=
  match symlink fs src dst with
  | Except.ok fs1 => symlink fs1 src dst
  | Except.error e => Except.error e

def exOk : Except e a → Bool
  | Except.ok _ => true
  | Except.error _ => false

/-- A filesystem where `a` is a symlink to the regular file `b`. -/
def fsLoopA : FS :=
  fun p => if p = "a" then some (Ent.link "b")
           else if p = "b" then some Ent.file else none

/-- The empty filesystem. -/
def fsEmpty : FS := fun _ => none

/-- A filesystem holding only the regular file `s`. -/
def fsFileS : FS := fun p => if p = "s" then some Ent.file else none

/-- A filesystem holding the regular files `s` and `d`. -/
def fsFileD : FS :=
  fun p => if p = "s" then some Ent.file
           else if p = "d" then some Ent.file else none

/-
  `_so_symlinks(path)` from system.py.  Its regular expression
  `(.+\.so)\.(\d+)\.(\d+)\.(\d+)$` is applied with `re.match` to the joined
  path.  Anchored on the right by `$`, the three numeric groups are forced
  to be the maximal trailing digit runs (a shorter match would leave a
  digit unmatched before the end or a dot unmatched before a group), so
  the decomposition is computed here from the reversed character list:
  three nonempty digit runs separated by dots, preceded by a dot, preceded
  by group 1, which must end in `.so` after at least one character.
-/

/-- Split a reversed character list into the groups of
`(.+\.so)\.(\d+)\.(\d+)\.(\d+)$`: returns (group1 reversed, major reversed,
minor reversed, patch reversed). -/
def soSplit (r0 : List Char) : Option (List Char × List Char × List Char × List Char) :=
  match r0.takeWhile Char.isDigit, r0.dropWhile Char.isDigit with
  | [], _ => none
  | _ :: _, '.' :: r2 =>
    match r2.takeWhile Char.isDigit, r2.dropWhile Char.isDigit with
    | [], _ => none
    | _ :: _, '.' :: r4 =>
      match r4.takeWhile Char.isDigit, r4.dropWhile Char.isDigit with
      | [], _ => none
      | _ :: _, '.' :: r6 =>
        match r6 with
        | 'o' :: 's' :: '.' :: _ :: _ =>
          some (r6, r4.takeWhile Char.isDigit, r2.takeWhile Char.isDigit,
            r0.takeWhile Char.isDigit)
        | _ => none
      | _, _ => none
    | _, _ => none
  | _, _ => none

/-- `re.match(r'(.+\.so)\.(\d+)\.(\d+)\.(\d+)$', s)`: on success returns
the four groups (base ending in `.so`, major, minor, patch). -/
def soMatch (s : String) : Option (String × String × String × String) :=
  match soSplit s.data.reverse with
  | some (b, x, y, z) =>
    some (String.mk b.reverse, String.mk x.reverse, String.mk y.reverse,
      String.mk z.reverse)
  | none => none

/-- The `for dirent in os.listdir(path)` loop of `_so_symlinks`: skip
directories and symlinks, and for every entry matching the pattern create
the three version symlinks via `symlink`, propagating its failures. -/
def soSymlinksGo (dir : String) : FS → List String → Except String FS
  | fs, [] => Except.ok fs
  | fs, dirent :: rest =>
    if isdirFS fs (osPathJoin dir dirent) || islinkFS fs (osPathJoin dir dirent) then
      soSymlinksGo dir fs rest
    else
      match soMatch (osPathJoin dir dirent) with
      | some (so, x, y, _z) =>
        match symlink fs (osPathJoin dir dirent) (so ++ "." ++ x ++ "." ++ y) with
        | Except.error e => Except.error e
        | Except.ok fs1 =>
          match symlink fs1 (osPathJoin dir dirent) (so ++ "." ++ x) with
          | Except.error e => Except.error e
          | Except.ok fs2 =>
            match symlink fs2 (osPathJoin dir dirent) so with
            | Except.error e => Except.error e
            | Except.ok fs3 => soSymlinksGo dir fs3 rest
      | none => soSymlinksGo dir fs rest

/-- `_so_symlinks(path)`.  The `assert AssertionError(...)` guard in the
source asserts the truthiness of a freshly built exception object, which
is always true, so it never fires and the listing is processed
unconditionally; the guard is therefore dropped here.  `listing` is the
result of `os.listdir(path)`. -/
def so_symlinks (dir : String) (listing : List String) (fs : FS) :
    Except String FS :=
  soSymlinksGo dir fs listing

/-- A directory `/lib` containing only the regular file `foo.so.1.2.3`. -/
def fsFoo : FS :=
  fun p => if p = "/lib/foo.so.1.2.3" then some Ent.file else none

/-
  `_linux_unload_module` and `_solaris_unload_module` from system.py.
  The commands they spawn are collected in a list; an empty list means the
  operation changed nothing.
-/

/-- A spawned external command. -/
structure Cmd where
  prog : String
  args : List String
deriving DecidableEq

/-- Python `\s` on byte strings. -/
def isPySpace (c : Char) : Bool :=
  c = ' ' || c = '\t' || c = '\n' || c = '\r' || c = '\x0b' || c = '\x0c'

/-- One multiline match of `^(libafs|openafs)\s` against a line of lsmod
output: the line starts with the module name followed by a whitespace
character.  Each line is implicitly terminated by the newline that
separated it from the next, so a line that is exactly the module name also
matches (the `\s` consumes that newline). -/
def kmodMatch (name : String) (l : String) : Bool :=
  name.data.isPrefixOf l.data &&
    (match l.data.drop name.length with
     | [] => true
     | c :: _ => isPySpace c)

/-- `re.findall(r'^(libafs|openafs)\s', output, re.M)` over the lines of
the lsmod output, keeping group 1 of each match. -/
def linuxKmods (lines : List String) : List String :=
  lines.filterMap (fun l =>
    if kmodMatch "libafs" l then some "libafs"
    else if kmodMatch "openafs" l then some "openafs" else none)

/-- `_linux_unload_module`: run rmmod once per matched module name.  The
argument is the line list of the lsmod output; the result is the list of
unload commands spawned. -/
def linux_unload_module (lines : List String) : List Cmd :=
  (linuxKmods lines).map (fun k => Cmd.mk "rmmod" [k])

/-- `_solaris_unload_module`: `_solaris_is_loaded` returns the module id
string, or the integer 0 when the module is absent (modelled as `none`);
modunload is spawned only for a non-zero id. -/
def solaris_unload_module (module_id : Option String) : List Cmd :=
  match module_id with
  | some mid => [Cmd.mk "modunload" ["-i", mid]]
  | none => []

/-- lsmod output with a header and one unrelated module line. -/
def lsmodClean : List String :=
  ["Module                  Size  Used by", "ext4                  778240  2"]

/-
  `get_running` from system.py.  The `ps ax` output is passed as its line
  list.  Python byte-string indexing and slicing become character-list
  operations; an IndexError or ValueError aborts the parse.
-/

inductive PyErr where
  | indexError
  | valueError
deriving DecidableEq

/-- `str.index(sub)`: position of the first occurrence, or a ValueError
(`none`) when absent. -/
def strIndexOf : List Char → List Char → Option Nat
  | hay, pat =>
    match hay with
    | [] => if pat = [] then some 0 else none
    | _ :: t =>
      if pat.isPrefixOf hay then some 0
      else (strIndexOf t pat).map (fun n => n + 1)

/-- `cmd_line.split()[0]` as a total function: the first whitespace-
delimited token, or `none` when the split yields an empty list. -/
def firstTokenL (l : List Char) : Option (List Char) :=
  match l.dropWhile isPySpace with
  | [] => none
  | c :: cs => some (c :: cs.takeWhile (fun d => !isPySpace d))

/-- `os.path.basename`: the part after the last separator. -/
def basenameL (l : List Char) : List Char :=
  (l.reverse.takeWhile (fun c => c ≠ '/')).reverse

/-- The `for line in lines[1:]` loop of `get_running`: slice each line at
the COMMAND column, test its first character against `[` (an IndexError
when the slice is empty), and take the first whitespace-delimited token
(an IndexError when there is none), accumulating basenames as a set. -/
def getRunningGo (column : Nat) : List String → List String →
    Except PyErr (List String)
  | [], procs => Except.ok procs
  | line :: rest, procs =>
    match line.data.drop column with
    | [] => Except.error PyErr.indexError
    | c :: cs =>
      if c = '[' then getRunningGo column rest procs
      else
        match firstTokenL (c :: cs) with
        | none => Except.error PyErr.indexError
        | some command =>
          let b := String.mk (basenameL command)
          getRunningGo column rest (if b ∈ procs then procs else procs ++ [b])

/-- `get_running()`, parsing the given `ps ax` output lines: find the
COMMAND column in the header line, then process the remaining lines. -/
def get_running (lines : List String) : Except PyErr (List String) :=
  match lines with
  | [] => Except.error PyErr.indexError
  | header :: rest =>
    match strIndexOf header.data ("COMMAND".data) with
    | none => Except.error PyErr.valueError
    | some column => getRunningGo column rest []

/-
  Lemmas about the retry loop of `run`.
-/

theorem countSpawn_pre (wait : Nat) (cl : Bool) (i : Nat) :
    countSpawn (preEvents wait cl i) = 0 := by
  unfold preEvents countSpawn
  split
  · simp
  · split <;> simp [isSpawnEv]

theorem countSleep_pre (wait : Nat) (cl : Bool) (i : Nat) :
    countSleep (preEvents wait cl i) = if i = 0 then 0 else 1 := by
  unfold preEvents countSleep
  split
  · simp
  · split <;> simp [isSleepEv, isCleanupEv]

theorem countCleanup_pre (wait : Nat) (i : Nat) :
    countCleanup (preEvents wait true i) = if i = 0 then 0 else 1 := by
  unfold preEvents countCleanup
  split <;> simp [isCleanupEv, isSleepEv]

theorem traceFrom_zero_eq (cmd : String) (args : List String) (wait : Nat)
    (cl : Bool) (first : Nat) :
    traceFrom cmd args wait cl first 0 =
      preEvents wait cl first ++ [Event.spawn cmd args] := rfl

theorem traceFrom_succ_eq (cmd : String) (args : List String) (wait : Nat)
    (cl : Bool) (first k : Nat) :
    traceFrom cmd args wait cl first (k + 1) =
      (preEvents wait cl first ++ [Event.spawn cmd args]) ++
        traceFrom cmd args wait cl (first + 1) k := rfl

theorem countSpawn_traceFrom (cmd : String) (args : List String) (wait : Nat)
    (cl : Bool) : ∀ k first, countSpawn (traceFrom cmd args wait cl first k) = k + 1 := by
  intro k
  induction k with
  | zero =>
    intro first
    have hpre := countSpawn_pre wait cl first
    unfold countSpawn at hpre ⊢
    rw [traceFrom_zero_eq, List.countP_append, hpre]
    simp [isSpawnEv]
  | succ k ih =>
    intro first
    have hpre := countSpawn_pre wait cl first
    have hih := ih (first + 1)
    unfold countSpawn at hpre hih ⊢
    rw [traceFrom_succ_eq, List.countP_append, List.countP_append, hpre, hih]
    simp [isSpawnEv]
    omega

theorem countSleep_traceFrom (cmd : String) (args : List String) (wait : Nat)
    (cl : Bool) : ∀ k first,
    countSleep (traceFrom cmd args wait cl first k) =
      k + (if first = 0 then 0 else 1) := by
  intro k
  induction k with
  | zero =>
    intro first
    have hpre := countSleep_pre wait cl first
    unfold countSleep at hpre ⊢
    rw [traceFrom_zero_eq, List.countP_append, hpre]
    simp [isSleepEv]
  | succ k ih =>
    intro first
    have hpre := countSleep_pre wait cl first
    have hih := ih (first + 1)
    unfold countSleep at hpre hih ⊢
    rw [traceFrom_succ_eq, List.countP_append, List.countP_append, hpre, hih]
    simp [isSleepEv]
    split <;> omega

theorem countCleanup_traceFrom (cmd : String) (args : List String) (wait : Nat) :
    ∀ k first,
    countCleanup (traceFrom cmd args wait true first k) =
      k + (if first = 0 then 0 else 1) := by
  intro k
  induction k with
  | zero =>
    intro first
    have hpre := countCleanup_pre wait first
    unfold countCleanup at hpre ⊢
    rw [traceFrom_zero_eq, List.countP_append, hpre]
    simp [isCleanupEv]
  | succ k ih =>
    intro first
    have hpre := countCleanup_pre wait first
    have hih := ih (first + 1)
    unfold countCleanup at hpre hih ⊢
    rw [traceFrom_succ_eq, List.countP_append, List.countP_append, hpre, hih]
    simp [isCleanupEv]
    split <;> omega

theorem traceFrom_head (cmd : String) (args : List String) (wait : Nat)
    (cl : Bool) (k : Nat) :
    (traceFrom cmd args wait cl 0 k).head? = some (Event.spawn cmd args) := by
  cases k
  · rw [traceFrom_zero_eq]
    simp [preEvents]
  · rw [traceFrom_succ_eq]
    simp [preEvents]

/-- One unfolding of the loop body, stated without the let bindings. -/
theorem runLoop_step (cmd : String) (args : List String) (wait : Nat)
    (cl : Bool) (ex : Nat → Attempt) (attempt rem : Nat) :
    runLoop cmd args wait cl ex attempt (rem + 1) =
      if (ex attempt).rc = 0 then
        (preEvents wait cl attempt ++ [Event.spawn cmd args],
         Except.ok (ex attempt).out)
      else if rem = 0 then
        (preEvents wait cl attempt ++ [Event.spawn cmd args],
         Except.error (CommandFailed.mk cmd args (ex attempt).rc
           (ex attempt).out (ex attempt).err))
      else
        (preEvents wait cl attempt ++ [Event.spawn cmd args] ++
           (runLoop cmd args wait cl ex (attempt + 1) rem).1,
         (runLoop cmd args wait cl ex (attempt + 1) rem).2) := rfl

theorem runLoop_success (cmd : String) (args : List String) (wait : Nat)
    (cl : Bool) (ex : Nat → Attempt) :
    ∀ k first rem, k < rem → (∀ i, i < k → (ex (first + i)).rc ≠ 0) →
    (ex (first + k)).rc = 0 →
    runLoop cmd args wait cl ex first rem =
      (traceFrom cmd args wait cl first k, Except.ok (ex (first + k)).out) := by
  intro k
  induction k with
  | zero =>
    intro first rem hlt h1 h2
    cases rem with
    | zero => omega
    | succ r =>
      rw [Nat.add_zero] at h2
      rw [runLoop_step, if_pos h2, traceFrom_zero_eq, Nat.add_zero]
  | succ k ih =>
    intro first rem hlt h1 h2
    cases rem with
    | zero => omega
    | succ r =>
      have hfail : (ex first).rc ≠ 0 := by
        have := h1 0 (by omega)
        rwa [Nat.add_zero] at this
      have hr : ¬ r = 0 := by omega
      have h1s : ∀ i, i < k → (ex (first + 1 + i)).rc ≠ 0 := by
        intro i hi
        have := h1 (i + 1) (by omega)
        rwa [show first + (i + 1) = first + 1 + i by omega] at this
      have h2s : (ex (first + 1 + k)).rc = 0 := by
        rwa [show first + (k + 1) = first + 1 + k by omega] at h2
      have hrec := ih (first + 1) r (by omega) h1s h2s
      rw [show first + 1 + k = first + (k + 1) by omega] at hrec
      rw [runLoop_step, if_neg hfail, if_neg hr, hrec, traceFrom_succ_eq]

theorem runLoop_allfail (cmd : String) (args : List String) (wait : Nat)
    (cl : Bool) (ex : Nat → Attempt) :
    ∀ r first, (∀ i, i ≤ r → (ex (first + i)).rc ≠ 0) →
    runLoop cmd args wait cl ex first (r + 1) =
      (traceFrom cmd args wait cl first r,
       Except.error (CommandFailed.mk cmd args (ex (first + r)).rc
         (ex (first + r)).out (ex (first + r)).err)) := by
  intro r
  induction r with
  | zero =>
    intro first h
    have hfail : (ex first).rc ≠ 0 := by
      have := h 0 (by omega)
      rwa [Nat.add_zero] at this
    rw [runLoop_step, if_neg hfail, if_pos rfl, traceFrom_zero_eq]
    rw [Nat.add_zero]
  | succ r ih =>
    intro first h
    have hfail : (ex first).rc ≠ 0 := by
      have := h 0 (by omega)
      rwa [Nat.add_zero] at this
    have hs : ∀ i, i ≤ r → (ex (first + 1 + i)).rc ≠ 0 := by
      intro i hi
      have := h (i + 1) (by omega)
      rwa [show first + (i + 1) = first + 1 + i by omega] at this
    have hrec := ih (first + 1) hs
    rw [show first + 1 + r = first + (r + 1) by omega] at hrec
    rw [runLoop_step, if_neg hfail, if_neg (by omega : ¬ r + 1 = 0), hrec,
      traceFrom_succ_eq]

theorem runLoop_error_inv (cmd : String) (args : List String) (wait : Nat)
    (cl : Bool) (ex : Nat → Attempt) :
    ∀ r first ev e, runLoop cmd args wait cl ex first (r + 1) = (ev, Except.error e) →
    e = CommandFailed.mk cmd args (ex (first + r)).rc (ex (first + r)).out
      (ex (first + r)).err ∧ (ex (first + r)).rc ≠ 0 := by
  intro r
  induction r with
  | zero =>
    intro first ev e h
    rw [runLoop_step] at h
    split at h
    · simp at h
    · simp only [reduceIte] at h
      rw [Prod.ext_iff] at h
      have he := h.2
      simp at he
      rw [Nat.add_zero]
      exact ⟨he.symm, by assumption⟩
  | succ r ih =>
    intro first ev e h
    rw [runLoop_step] at h
    split at h
    · simp at h
    · split at h
      · omega
      · rw [Prod.ext_iff] at h
        have he := h.2
        simp at he
        have hrec := ih (first + 1)
          (runLoop cmd args wait cl ex (first + 1) (r + 1)).1 e
          (by rw [← he])
        rwa [show first + 1 + r = first + (r + 1) by omega] at hrec

/-- C1: for every retry count n and a command exiting non-zero on all
attempts, `run` performs exactly n+1 spawns and exactly n sleeps before
raising CommandFailed, with no sleep before the first attempt (the trace
begins with a spawn). -/
theorem run_allfail_attempts (cmd : String) (args : List String) (n wait : Nat)
    (cl : Bool) (ex : Nat → Attempt) (h : ∀ i, i ≤ n → (ex i).rc ≠ 0) :
    countSpawn (run cmd args n wait cl ex).1 = n + 1 ∧
    countSleep (run cmd args n wait cl ex).1 = n ∧
    (run cmd args n wait cl ex).1.head? = some (Event.spawn cmd (cmd :: args)) ∧
    (run cmd args n wait cl ex).2 =
      Except.error (CommandFailed.mk cmd (cmd :: args) (ex n).rc (ex n).out
        (ex n).err) := by
  have h0 : ∀ i, i ≤ n → (ex (0 + i)).rc ≠ 0 := by
    intro i hi
    rw [Nat.zero_add]
    exact h i hi
  have hrun := runLoop_allfail cmd (cmd :: args) wait cl ex n 0 h0
  rw [Nat.zero_add] at hrun
  unfold run
  rw [hrun]
  refine ⟨?_, ?_, ?_, rfl⟩
  · simp [countSpawn_traceFrom]
  · have := countSleep_traceFrom cmd (cmd :: args) wait cl n 0
    simpa using this
  · simp [traceFrom_head]

/-- Witness for C1 at retry = 2 with an always-failing command. -/
theorem run_allfail_attempts_witness :
    countSpawn (run "c" ["x"] 2 5 false exFail1).1 = 3 ∧
    countSleep (run "c" ["x"] 2 5 false exFail1).1 = 2 ∧
    (run "c" ["x"] 2 5 false exFail1).1.head? =
      some (Event.spawn "c" ["c", "x"]) ∧
    (run "c" ["x"] 2 5 false exFail1).2 =
      Except.error (CommandFailed.mk "c" ["c", "x"] 2 "o1" "e1") :=
  run_allfail_attempts "c" ["x"] 2 5 false exFail1 (fun i _ => by
    simp [exFail1])

/-- C2: when a command fails on the first k attempts and succeeds on
attempt k+1 with k ≤ retry, `run` returns the output captured on the
succeeding attempt and spawns exactly k+1 times (no further attempts, and
the failed output is not part of the result). -/
theorem run_success_returns (cmd : String) (args : List String) (n wait : Nat)
    (cl : Bool) (ex : Nat → Attempt) (k : Nat)
    (h1 : ∀ i, i < k → (ex i).rc ≠ 0) (h2 : (ex k).rc = 0) (h3 : k ≤ n) :
    (run cmd args n wait cl ex).2 = Except.ok (ex k).out ∧
    countSpawn (run cmd args n wait cl ex).1 = k + 1 := by
  have h1z : ∀ i, i < k → (ex (0 + i)).rc ≠ 0 := by
    intro i hi
    rw [Nat.zero_add]
    exact h1 i hi
  have h2z : (ex (0 + k)).rc = 0 := by rwa [Nat.zero_add]
  have hrun := runLoop_success cmd (cmd :: args) wait cl ex k 0 (n + 1)
    (by omega) h1z h2z
  rw [Nat.zero_add] at hrun
  unfold run
  rw [hrun]
  exact ⟨rfl, by simp [countSpawn_traceFrom]⟩

/-- Witness for C2: fails on attempts 0 and 1, succeeds on attempt 2,
retry = 3. -/
theorem run_success_returns_witness :
    (run "c" [] 3 1 false exOk2).2 = Except.ok "good" ∧
    countSpawn (run "c" [] 3 1 false exOk2).1 = 3 :=
  run_success_returns "c" [] 3 1 false exOk2 2
    (fun i hi => by
      have h : i = 0 ∨ i = 1 := by omega
      rcases h with h | h <;> subst h <;> simp [exOk2])
    (by simp [exOk2]) (by omega)

/-- C3 counterexample: two commands whose succeeding attempts differ only
in captured stderr produce identical `run` results, so the value returned
on success cannot contain the stderr (nor, by the same token, anything
beyond the captured stdout): the claim that `run` returns a CommandResult
with exit code, stdout and stderr fields is false of the code. -/
theorem run_result_not_command_result :
    run "c" [] 0 1 false exErrA = run "c" [] 0 1 false exErrB ∧
    (exErrA 0).err ≠ (exErrB 0).err := by
  exact ⟨rfl, by simp [exErrA, exErrB]⟩

/-- C3 amended: on success `run` returns only the captured stdout of the
succeeding attempt; the exit code and captured stderr are not part of the
returned value. -/
theorem run_success_stdout_only (cmd : String) (args : List String)
    (n wait : Nat) (cl : Bool) (ex : Nat → Attempt) (k : Nat)
    (h1 : ∀ i, i < k → (ex i).rc ≠ 0) (h2 : (ex k).rc = 0) (h3 : k ≤ n) :
    (run cmd args n wait cl ex).2 = Except.ok (ex k).out := by
  have h1z : ∀ i, i < k → (ex (0 + i)).rc ≠ 0 := by
    intro i hi
    rw [Nat.zero_add]
    exact h1 i hi
  have h2z : (ex (0 + k)).rc = 0 := by rwa [Nat.zero_add]
  have hrun := runLoop_success cmd (cmd :: args) wait cl ex k 0 (n + 1)
    (by omega) h1z h2z
  rw [Nat.zero_add] at hrun
  unfold run
  rw [hrun]

/-- Witness for the amended C3: fails once, then succeeds with stdout
"stdout3"; stderr "stderr3" and exit code are absent from the result. -/
theorem run_success_stdout_only_witness :
    (run "d" ["a"] 2 1 true exOk3).2 = Except.ok "stdout3" :=
  run_success_stdout_only "d" ["a"] 2 1 true exOk3 1
    (fun i hi => by
      have h : i = 0 := by omega
      subst h
      simp [exOk3])
    (by simp [exOk3]) (by omega)

/-- C4: with a cleanup action set, the cleanup is invoked exactly once
before each retry attempt, never before the first attempt, in attempt
order: the full event trace is, for each attempt after the first, a sleep
followed by the cleanup followed by the spawn, so a `run` that performs k
retries invokes the cleanup exactly k times, whether the last attempt
succeeds or all attempts fail. -/
theorem run_cleanup_per_retry (cmd : String) (args : List String)
    (n wait : Nat) (ex : Nat → Attempt) :
    (∀ k, k ≤ n → (∀ i, i < k → (ex i).rc ≠ 0) → (ex k).rc = 0 →
      run cmd args n wait true ex =
        (traceFrom cmd (cmd :: args) wait true 0 k, Except.ok (ex k).out) ∧
      countCleanup (run cmd args n wait true ex).1 = k) ∧
    ((∀ i, i ≤ n → (ex i).rc ≠ 0) →
      run cmd args n wait true ex =
        (traceFrom cmd (cmd :: args) wait true 0 n,
         Except.error (CommandFailed.mk cmd (cmd :: args) (ex n).rc (ex n).out
           (ex n).err)) ∧
      countCleanup (run cmd args n wait true ex).1 = n) := by
  constructor
  · intro k hk h1 h2
    have h1z : ∀ i, i < k → (ex (0 + i)).rc ≠ 0 := by
      intro i hi
      rw [Nat.zero_add]
      exact h1 i hi
    have h2z : (ex (0 + k)).rc = 0 := by rwa [Nat.zero_add]
    have hrun := runLoop_success cmd (cmd :: args) wait true ex k 0 (n + 1)
      (by omega) h1z h2z
    rw [Nat.zero_add] at hrun
    unfold run
    rw [hrun]
    refine ⟨rfl, ?_⟩
    have := countCleanup_traceFrom cmd (cmd :: args) wait k 0
    simpa using this
  · intro h
    have h0 : ∀ i, i ≤ n → (ex (0 + i)).rc ≠ 0 := by
      intro i hi
      rw [Nat.zero_add]
      exact h i hi
    have hrun := runLoop_allfail cmd (cmd :: args) wait true ex n 0 h0
    rw [Nat.zero_add] at hrun
    unfold run
    rw [hrun]
    refine ⟨rfl, ?_⟩
    have := countCleanup_traceFrom cmd (cmd :: args) wait n 0
    simpa using this

/-- Witness for C4: one retry actually performed before success, so the
trace is spawn, sleep, cleanup, spawn and the cleanup runs once. -/
theorem run_cleanup_per_retry_witness :
    run "c" [] 2 1 true exOk4 =
      (traceFrom "c" ["c"] 1 true 0 1, Except.ok "g4") ∧
    countCleanup (run "c" [] 2 1 true exOk4).1 = 1 :=
  (run_cleanup_per_retry "c" [] 2 1 exOk4).1 1 (by omega)
    (fun i hi => by
      have h : i = 0 := by omega
      subst h
      simp [exOk4])
    (by simp [exOk4])

/-- C5: whenever `run` raises CommandFailed, the raised value carries the
program path, the full argument vector (program at position 0), and the
exit code, stdout and stderr of the last attempt, and its exit code is
non-zero. -/
theorem run_failure_carries_last (cmd : String) (args : List String)
    (n wait : Nat) (cl : Bool) (ex : Nat → Attempt) (e : CommandFailed)
    (h : (run cmd args n wait cl ex).2 = Except.error e) :
    e.cmd = cmd ∧ e.args = cmd :: args ∧ e.code = (ex n).rc ∧
    e.out = (ex n).out ∧ e.err = (ex n).err ∧ e.code ≠ 0 := by
  unfold run at h
  have hpair : runLoop cmd (cmd :: args) wait cl ex 0 (n + 1) =
      ((runLoop cmd (cmd :: args) wait cl ex 0 (n + 1)).1, Except.error e) := by
    rw [← h]
  have hinv := runLoop_error_inv cmd (cmd :: args) wait cl ex n 0
    (runLoop cmd (cmd :: args) wait cl ex 0 (n + 1)).1 e hpair
  rw [Nat.zero_add] at hinv
  obtain ⟨he, hrc⟩ := hinv
  subst he
  exact ⟨rfl, rfl, rfl, rfl, rfl, hrc⟩

/-- Witness for C5 at retry = 1 with an always-failing command: the raised
value is exactly the data of the last attempt. -/
theorem run_failure_carries_last_witness :
    "c" = "c" ∧ ["c"] = ["c"] ∧ (3 : Int) = (exFail5 1).rc ∧
    "o3" = (exFail5 1).out ∧ "e3" = (exFail5 1).err ∧ (3 : Int) ≠ 0 :=
  run_failure_carries_last "c" [] 1 1 false exFail5
    (CommandFailed.mk "c" ["c"] 3 "o3" "e3") rfl

/-
  `which` against the PathFinder contract.
-/

theorem whichSearch_spec (fs : FSx) (program : String) (allPaths : List String)
    (strict : Bool) : ∀ ps : List String,
    Except.mapError (fun _ => ()) (whichSearch fs program allPaths strict ps) =
      (match ps.find? (fun d => execCandidate fs program d) with
       | some d => Except.ok (some (osPathJoin (stripQuotes d) program))
       | none => if strict then Except.error () else Except.ok none) := by
  intro ps
  induction ps with
  | nil =>
    unfold whichSearch
    split <;> simp [Except.mapError]
  | cons p rest ih =>
    by_cases hp : execCandidate fs program p
    · simp [whichSearch, hp, List.find?_cons_of_pos, Except.mapError]
    · rw [List.find?_cons_of_neg _ (by simp [hp])]
      simp only [whichSearch, hp]
      rw [if_neg (by simp [hp])]
      exact ih

/-- C6: `which` behaves exactly as the PathFinder contract of the
specification describes, modulo the text of the raised message: an input
with a separator is returned unchanged when it is an existing executable
file and absent otherwise (or the call fails in strict mode); an input
without a separator is resolved by scanning the inherited search-path
list concatenated with the extra paths in order, stripping surrounding
quotes from each entry, returning the first directory holding an
executable file of the name, absent (or a strict failure) when none
does. -/
theorem which_matches_resolveSpec (fs : FSx) (program : String)
    (extra_paths : List String) (strict : Bool) :
    Except.mapError (fun _ => ()) (which fs program extra_paths strict) =
      resolveSpec fs program extra_paths strict := by
  unfold which resolveSpec
  split
  · by_cases hc : fs.isfile program && fs.access_x program
    · simp [hc, Except.mapError]
    · simp only [hc, Bool.false_eq_true, if_false]
      split <;> simp [Except.mapError]
  · exact whichSearch_spec fs program _ strict _

/-
  Lemmas about bounded symlink resolution.
-/

theorem resolveEnt_file {fs : FS} {p : String} (h : fs p = some Ent.file)
    (n : Nat) : resolveEnt fs (n + 1) p = some Ent.file := by
  simp [resolveEnt, h]

theorem resolveEnt_dir {fs : FS} {p : String} (h : fs p = some Ent.dir)
    (n : Nat) : resolveEnt fs (n + 1) p = some Ent.dir := by
  simp [resolveEnt, h]

theorem resolveEnt_none {fs : FS} {p : String} (h : fs p = none)
    (n : Nat) : resolveEnt fs (n + 1) p = none := by
  simp [resolveEnt, h]

theorem resolveEnt_link {fs : FS} {p t : String} (h : fs p = some (Ent.link t))
    (n : Nat) : resolveEnt fs (n + 1) p = resolveEnt fs n t := by
  simp [resolveEnt, h]

theorem isfileFS_of_file {fs : FS} {p : String} (h : fs p = some Ent.file) :
    isfileFS fs p = true := by
  unfold isfileFS
  rw [show symloopMax = 39 + 1 from rfl, resolveEnt_file h]
  simp

theorem isdirFS_of_file {fs : FS} {p : String} (h : fs p = some Ent.file) :
    isdirFS fs p = false := by
  unfold isdirFS
  rw [show symloopMax = 39 + 1 from rfl, resolveEnt_file h]
  simp

theorem existsFS_of_none {fs : FS} {p : String} (h : fs p = none) :
    existsFS fs p = false := by
  unfold existsFS
  rw [show symloopMax = 39 + 1 from rfl, resolveEnt_none h]
  rfl

theorem islinkFS_of_not_link {fs : FS} {p : String}
    (h : ∀ t, fs p ≠ some (Ent.link t)) : islinkFS fs p = false := by
  unfold islinkFS
  split
  · exact absurd (by assumption) (h _)
  · rfl

theorem islinkFS_of_link {fs : FS} {p t : String} (h : fs p = some (Ent.link t)) :
    islinkFS fs p = true := by
  unfold islinkFS
  rw [h]

theorem isfileFS_of_link_file {fs : FS} {p t : String}
    (hp : fs p = some (Ent.link t)) (ht : fs t = some Ent.file) :
    isfileFS fs p = true := by
  unfold isfileFS
  rw [show symloopMax = 39 + 1 from rfl, resolveEnt_link hp,
    show (39 : Nat) = 38 + 1 from rfl, resolveEnt_file ht]
  simp

/-- A `symlink` call whose source is a plain regular file and whose
destination is wholly absent from the filesystem succeeds and adds only
the link. -/
theorem symlink_fresh {fs : FS} {src dst : String}
    (hsrc : fs src = some Ent.file) (hdst : fs dst = none) :
    symlink fs src dst = Except.ok (fsSet fs dst (Ent.link src)) := by
  have h1 : isfileFS fs src = true := isfileFS_of_file hsrc
  have h2 : existsFS fs dst = false := existsFS_of_none hdst
  have h3 : islinkFS fs dst = false :=
    islinkFS_of_not_link (by intro t ht; rw [hdst] at ht; cases ht)
  unfold symlink
  rw [h1, h2, h3]
  simp

/-- C7 counterexample: with `a` a symlink to the regular file `b`, the
first `symlink(a, a)` call succeeds (it re-points `a` at itself), but the
second call with the same arguments fails because `a` no longer resolves
to a regular file — so calling `symlink` twice with the same arguments
does not always succeed both times. -/
theorem symlink_twice_not_idempotent :
    exOk (symlink fsLoopA "a" "a") = true ∧
    exOk (symlinkTwice fsLoopA "a" "a") = false := by
  constructor <;> rfl

/-- C7 amended: `symlink` fails when the source is not an existing regular
file (following symlinks); it fails when the destination exists and is
not itself a symlink; and when additionally the source is itself a plain
regular file (not merely a symlink resolving to one), a successful call
can be repeated: the second call also succeeds, changes nothing further,
and the destination is a symlink pointing at the source. -/
theorem symlink_contract (fs : FS) (src dst : String) :
    (isfileFS fs src = false →
      symlink fs src dst =
        Except.error ("Failed to make symlink: src " ++ src ++ " not found")) ∧
    (existsFS fs dst = true → islinkFS fs dst = false →
      exOk (symlink fs src dst) = false) ∧
    (fs src = some Ent.file →
      (existsFS fs dst = false ∨ islinkFS fs dst = true) →
      ∃ f2, symlinkTwice fs src dst = Except.ok f2 ∧
        f2 dst = some (Ent.link src) ∧ isfileFS f2 dst = true) := by
  refine ⟨?_, ?_, ?_⟩
  · intro h
    unfold symlink
    rw [h]
    simp
  · intro hex hlink
    unfold symlink
    by_cases h : isfileFS fs src = false
    · rw [h]
      simp [exOk]
    · rw [if_neg h, hex, hlink]
      simp [exOk]
  · intro h1 h2
    have hsrc : isfileFS fs src = true := isfileFS_of_file h1
    have hne : dst ≠ src := by
      intro hdd
      subst hdd
      rcases h2 with hex | hlink
      · have hx : existsFS fs dst = true := by
          unfold existsFS
          rw [show symloopMax = 39 + 1 from rfl, resolveEnt_file h1]
          rfl
        rw [hx] at hex
        cases hex
      · unfold islinkFS at hlink
        rw [h1] at hlink
        cases hlink
    have hcond : (existsFS fs dst && !islinkFS fs dst) = false := by
      rcases h2 with hex | hlink
      · rw [hex]
        rfl
      · rw [hlink]
        simp
    have hfirst : symlink fs src dst =
        Except.ok (fsSet (if islinkFS fs dst then fsRemove fs dst else fs) dst
          (Ent.link src)) := by
      unfold symlink
      rw [hsrc, hcond]
      simp
    have hf1src :
        fsSet (if islinkFS fs dst then fsRemove fs dst else fs) dst
          (Ent.link src) src = some Ent.file := by
      simp only [fsSet]
      rw [if_neg (Ne.symm hne)]
      split
      · simp only [fsRemove]
        rw [if_neg (Ne.symm hne)]
        exact h1
      · exact h1
    have hf1dst :
        fsSet (if islinkFS fs dst then fsRemove fs dst else fs) dst
          (Ent.link src) dst = some (Ent.link src) := by
      simp [fsSet]
    have hsrc2 := isfileFS_of_file hf1src
    have hlink2 := islinkFS_of_link hf1dst
    have hsecond :
        symlink (fsSet (if islinkFS fs dst then fsRemove fs dst else fs) dst
            (Ent.link src)) src dst =
          Except.ok (fsSet (fsRemove
            (fsSet (if islinkFS fs dst then fsRemove fs dst else fs) dst
              (Ent.link src)) dst) dst (Ent.link src)) := by
      unfold symlink
      rw [hsrc2, hlink2]
      simp
    refine ⟨fsSet (fsRemove
        (fsSet (if islinkFS fs dst then fsRemove fs dst else fs) dst
          (Ent.link src)) dst) dst (Ent.link src), ?_, ?_, ?_⟩
    · unfold symlinkTwice
      rw [hfirst]
      exact hsecond
    · simp [fsSet]
    · have hf2dst :
          fsSet (fsRemove
            (fsSet (if islinkFS fs dst then fsRemove fs dst else fs) dst
              (Ent.link src)) dst) dst (Ent.link src) dst =
            some (Ent.link src) := by
        simp [fsSet]
      have hf2src :
          fsSet (fsRemove
            (fsSet (if islinkFS fs dst then fsRemove fs dst else fs) dst
              (Ent.link src)) dst) dst (Ent.link src) src =
            some Ent.file := by
        simp only [fsSet, fsRemove]
        rw [if_neg (Ne.symm hne), if_neg (Ne.symm hne)]
        exact hf1src
      exact isfileFS_of_link_file hf2dst hf2src

/-- Witness for the amended C7: all three parts of the contract at
concrete filesystems: a missing source fails; an existing non-symlink
destination fails; a plain regular-file source with an absent destination
supports two identical successful calls leaving the destination a symlink
to the source. -/
theorem symlink_contract_witness :
    symlink fsEmpty "s" "d" =
      Except.error ("Failed to make symlink: src " ++ "s" ++ " not found") ∧
    exOk (symlink fsFileD "s" "d") = false ∧
    (∃ f2, symlinkTwice fsFileS "s" "d" = Except.ok f2 ∧
      f2 "d" = some (Ent.link "s") ∧ isfileFS f2 "d" = true) :=
  ⟨(symlink_contract fsEmpty "s" "d").1 (by decide),
   (symlink_contract fsFileD "s" "d").2.1 (by decide) (by decide),
   (symlink_contract fsFileS "s" "d").2.2 rfl (Or.inl (by decide))⟩

/-
  C8: unloading an absent kernel module is a no-op.
-/

/-- C8: on Linux, when no lsmod line matches the `^(libafs|openafs)\s`
pattern, `_linux_unload_module` spawns no rmmod command; on Solaris, when
the module-id lookup reports the module absent (Python 0), no modunload
command is spawned — in both cases nothing is executed, so the operation
completes without error and changes nothing. -/
/-
  C9: version symlinks for shared libraries.
-/

theorem strLen_app_dot (a b : String) :
    (a ++ "." ++ b).data.length = a.data.length + 1 + b.data.length := by
  rw [String.data_append, String.data_append, List.length_append,
    List.length_append]
  have hd : ("." : String).data.length = 1 := rfl
  omega

theorem str_ne_app_dot (a b : String) : (a ++ "." ++ b) ≠ a := by
  intro h
  have h2 := congrArg (fun s : String => s.data.length) h
  dsimp only at h2
  rw [strLen_app_dot] at h2
  omega

/-- C9: for a non-directory, non-symlink entry whose joined path matches
`(.+\.so)\.(\d+)\.(\d+)\.(\d+)$` with groups so, x, y, z, and whose three
version names are absent, `_so_symlinks` succeeds and creates exactly the
three symlinks so.x.y, so.x and so, each pointing at — and resolving to —
the matched entry, which itself is left a regular file; nothing else in
the filesystem changes.  Instantiated at a directory holding only
`foo.so.1.2.3`, this yields the three spec symlinks `foo.so.1.2`,
`foo.so.1` and `foo.so`. -/
theorem so_symlinks_single (dir name : String) (fs : FS) (so x y z : String)
    (hm : soMatch (osPathJoin dir name) = some (so, x, y, z))
    (hf : fs (osPathJoin dir name) = some Ent.file)
    (h1 : fs (so ++ "." ++ x ++ "." ++ y) = none)
    (h2 : fs (so ++ "." ++ x) = none)
    (h3 : fs so = none) :
    ∃ f2, so_symlinks dir [name] fs = Except.ok f2 ∧
      f2 (so ++ "." ++ x ++ "." ++ y) = some (Ent.link (osPathJoin dir name)) ∧
      f2 (so ++ "." ++ x) = some (Ent.link (osPathJoin dir name)) ∧
      f2 so = some (Ent.link (osPathJoin dir name)) ∧
      f2 (osPathJoin dir name) = some Ent.file ∧
      isfileFS f2 (so ++ "." ++ x ++ "." ++ y) = true ∧
      isfileFS f2 (so ++ "." ++ x) = true ∧
      isfileFS f2 so = true ∧
      (∀ p, p ≠ (so ++ "." ++ x ++ "." ++ y) → p ≠ (so ++ "." ++ x) → p ≠ so →
        f2 p = fs p) := by
  have hnd1 : (so ++ "." ++ x ++ "." ++ y) ≠ osPathJoin dir name := by
    intro h
    rw [h, hf] at h1
    cases h1
  have hnd2 : (so ++ "." ++ x) ≠ osPathJoin dir name := by
    intro h
    rw [h, hf] at h2
    cases h2
  have hnd3 : so ≠ osPathJoin dir name := by
    intro h
    rw [h, hf] at h3
    cases h3
  have hne12 : (so ++ "." ++ x ++ "." ++ y) ≠ (so ++ "." ++ x) :=
    str_ne_app_dot (so ++ "." ++ x) y
  have hne23 : (so ++ "." ++ x) ≠ so := str_ne_app_dot so x
  have hne13 : (so ++ "." ++ x ++ "." ++ y) ≠ so := by
    intro h
    have hl := congrArg (fun s : String => s.data.length) h
    dsimp only at hl
    rw [strLen_app_dot, strLen_app_dot] at hl
    omega
  have hskip : (isdirFS fs (osPathJoin dir name) ||
      islinkFS fs (osPathJoin dir name)) = false := by
    rw [isdirFS_of_file hf, islinkFS_of_not_link (by
      intro t ht
      rw [hf] at ht
      cases ht)]
    rfl
  have hs1 : symlink fs (osPathJoin dir name) (so ++ "." ++ x ++ "." ++ y) =
      Except.ok (fsSet fs (so ++ "." ++ x ++ "." ++ y)
        (Ent.link (osPathJoin dir name))) := symlink_fresh hf h1
  have hf1f : fsSet fs (so ++ "." ++ x ++ "." ++ y)
      (Ent.link (osPathJoin dir name)) (osPathJoin dir name) = some Ent.file := by
    simp only [fsSet]
    rw [if_neg (Ne.symm hnd1)]
    exact hf
  have hf1d2 : fsSet fs (so ++ "." ++ x ++ "." ++ y)
      (Ent.link (osPathJoin dir name)) (so ++ "." ++ x) = none := by
    simp only [fsSet]
    rw [if_neg (Ne.symm hne12)]
    exact h2
  have hs2 : symlink (fsSet fs (so ++ "." ++ x ++ "." ++ y)
        (Ent.link (osPathJoin dir name))) (osPathJoin dir name)
        (so ++ "." ++ x) =
      Except.ok (fsSet (fsSet fs (so ++ "." ++ x ++ "." ++ y)
        (Ent.link (osPathJoin dir name))) (so ++ "." ++ x)
        (Ent.link (osPathJoin dir name))) := symlink_fresh hf1f hf1d2
  have hf2f : fsSet (fsSet fs (so ++ "." ++ x ++ "." ++ y)
      (Ent.link (osPathJoin dir name))) (so ++ "." ++ x)
      (Ent.link (osPathJoin dir name)) (osPathJoin dir name) = some Ent.file := by
    simp only [fsSet]
    rw [if_neg (Ne.symm hnd2), if_neg (Ne.symm hnd1)]
    exact hf
  have hf2d3 : fsSet (fsSet fs (so ++ "." ++ x ++ "." ++ y)
      (Ent.link (osPathJoin dir name))) (so ++ "." ++ x)
      (Ent.link (osPathJoin dir name)) so = none := by
    simp only [fsSet]
    rw [if_neg (Ne.symm hne23), if_neg (Ne.symm hne13)]
    exact h3
  have hs3 : symlink (fsSet (fsSet fs (so ++ "." ++ x ++ "." ++ y)
        (Ent.link (osPathJoin dir name))) (so ++ "." ++ x)
        (Ent.link (osPathJoin dir name))) (osPathJoin dir name) so =
      Except.ok (fsSet (fsSet (fsSet fs (so ++ "." ++ x ++ "." ++ y)
        (Ent.link (osPathJoin dir name))) (so ++ "." ++ x)
        (Ent.link (osPathJoin dir name))) so
        (Ent.link (osPathJoin dir name))) := symlink_fresh hf2f hf2d3
  refine ⟨fsSet (fsSet (fsSet fs (so ++ "." ++ x ++ "." ++ y)
      (Ent.link (osPathJoin dir name))) (so ++ "." ++ x)
      (Ent.link (osPathJoin dir name))) so (Ent.link (osPathJoin dir name)),
    ?_, ?_, ?_, ?_, ?_, ?_, ?_, ?_, ?_⟩
  · simp only [so_symlinks, soSymlinksGo, hskip, Bool.false_eq_true, if_false,
      hm, hs1, hs2, hs3]
  · simp [fsSet, hne13, hne12]
  · simp [fsSet, hne23]
  · simp [fsSet]
  · simp [fsSet, Ne.symm hnd3, Ne.symm hnd2, Ne.symm hnd1, hf]
  · refine isfileFS_of_link_file (t := osPathJoin dir name) ?_ ?_
    · simp [fsSet, hne13, hne12]
    · simp [fsSet, Ne.symm hnd3, Ne.symm hnd2, Ne.symm hnd1, hf]
  · refine isfileFS_of_link_file (t := osPathJoin dir name) ?_ ?_
    · simp [fsSet, hne23]
    · simp [fsSet, Ne.symm hnd3, Ne.symm hnd2, Ne.symm hnd1, hf]
  · refine isfileFS_of_link_file (t := osPathJoin dir name) ?_ ?_
    · simp [fsSet]
    · simp [fsSet, Ne.symm hnd3, Ne.symm hnd2, Ne.symm hnd1, hf]
  · intro p hp1 hp2 hp3
    simp [fsSet, hp1, hp2, hp3]

/-- Witness for C9: a directory `/lib` containing only `foo.so.1.2.3`
gains the symlinks `foo.so.1.2`, `foo.so.1` and `foo.so`, each resolving
to `/lib/foo.so.1.2.3`. -/
theorem so_symlinks_single_witness :
    ∃ f2, so_symlinks "/lib" ["foo.so.1.2.3"] fsFoo = Except.ok f2 ∧
      f2 ("/lib/foo.so" ++ "." ++ "1" ++ "." ++ "2") =
        some (Ent.link (osPathJoin "/lib" "foo.so.1.2.3")) ∧
      f2 ("/lib/foo.so" ++ "." ++ "1") =
        some (Ent.link (osPathJoin "/lib" "foo.so.1.2.3")) ∧
      f2 "/lib/foo.so" = some (Ent.link (osPathJoin "/lib" "foo.so.1.2.3")) ∧
      f2 (osPathJoin "/lib" "foo.so.1.2.3") = some Ent.file ∧
      isfileFS f2 ("/lib/foo.so" ++ "." ++ "1" ++ "." ++ "2") = true ∧
      isfileFS f2 ("/lib/foo.so" ++ "." ++ "1") = true ∧
      isfileFS f2 "/lib/foo.so" = true ∧
      (∀ p, p ≠ ("/lib/foo.so" ++ "." ++ "1" ++ "." ++ "2") →
        p ≠ ("/lib/foo.so" ++ "." ++ "1") → p ≠ "/lib/foo.so" →
        f2 p = fsFoo p) :=
  so_symlinks_single "/lib" "foo.so.1.2.3" fsFoo "/lib/foo.so" "1" "2" "3"
    (by decide) (by decide) (by decide) (by decide) (by decide)

/-
  C8: unloading an absent kernel module is a no-op.
-/

theorem unload_module_noop (lines : List String)
    (h : ∀ l ∈ lines, kmodMatch "libafs" l = false ∧ kmodMatch "openafs" l = false) :
    linux_unload_module lines = [] ∧ solaris_unload_module none = [] := by
  constructor
  · unfold linux_unload_module
    have hk : linuxKmods lines = [] := by
      unfold linuxKmods
      rw [List.filterMap_eq_nil_iff]
      intro l hl
      rw [(h l hl).1, (h l hl).2]
      simp
    rw [hk]
    rfl
  · rfl

/-- Witness for C8: lsmod output listing only an unrelated module. -/
theorem unload_module_noop_witness :
    linux_unload_module lsmodClean = [] ∧ solaris_unload_module none = [] :=
  unload_module_noop lsmodClean (by decide)

/-
  C10: `get_running` raises on a short or whitespace-only command field.
-/

theorem dropWhile_of_all {l : List Char} (h : l.all isPySpace = true) :
    l.dropWhile isPySpace = [] := by
  induction l with
  | nil => rfl
  | cons c cs ih =>
    rw [List.all_cons] at h
    have hc := (Bool.and_eq_true _ _).mp h
    simp [List.dropWhile, hc.1, ih hc.2]

theorem getRunningGo_bad (column : Nat) :
    ∀ rest procs, (∃ l ∈ rest, (l.data.drop column).all isPySpace = true) →
    getRunningGo column rest procs = Except.error PyErr.indexError := by
  intro rest
  induction rest with
  | nil =>
    intro procs h
    obtain ⟨l, hl, _⟩ := h
    cases hl
  | cons l0 rest ih =>
    intro procs h
    obtain ⟨l, hl, hbad⟩ := h
    rcases List.mem_cons.mp hl with hEq | hMem
    · subst hEq
      unfold getRunningGo
      split
      · rfl
      · next c cs hcl =>
        rw [hcl] at hbad
        rw [List.all_cons] at hbad
        have hc := (Bool.and_eq_true _ _).mp hbad
        have hcnb : ¬ c = '[' := by
          intro hb
          subst hb
          cases hc.1
        rw [if_neg hcnb]
        have htok : firstTokenL (c :: cs) = none := by
          unfold firstTokenL
          rw [show (c :: cs).dropWhile isPySpace = [] from
            dropWhile_of_all hbad]
        rw [htok]
    · unfold getRunningGo
      split
      · rfl
      · next c cs hcl =>
        by_cases hc : c = '['
        · rw [if_pos hc]
          exact ih _ ⟨l, hMem, hbad⟩
        · rw [if_neg hc]
          cases htok : firstTokenL (c :: cs) with
          | none => rfl
          | some command => exact ih _ ⟨l, hMem, hbad⟩

/-- C10: `get_running` is a total parse only of well-formed ps output:
whenever some line after the header is shorter than the COMMAND column
offset (so its slice is empty and the first-character test for a bracket
indexes out of range) or its command field is whitespace-only (so taking
the first whitespace-delimited token indexes an empty list), the parse
raises an IndexError instead of skipping that line. -/
theorem get_running_bad_line_raises (header : String) (rest : List String)
    (column : Nat) (l : String)
    (hcol : strIndexOf header.data ("COMMAND".data) = some column)
    (hmem : l ∈ rest)
    (hbad : (l.data.drop column).all isPySpace = true) :
    get_running (header :: rest) = Except.error PyErr.indexError := by
  show (match strIndexOf header.data ("COMMAND".data) with
        | none => Except.error PyErr.valueError
        | some column => getRunningGo column rest []) =
      Except.error PyErr.indexError
  rw [hcol]
  exact getRunningGo_bad column rest [] ⟨l, hmem, hbad⟩

/-- Witness for C10: a ps output whose single data line is shorter than
the COMMAND column. -/
theorem get_running_bad_line_raises_witness :
    get_running ["PID COMMAND", "1 ab"] = Except.error PyErr.indexError :=
  get_running_bad_line_raises "PID COMMAND" ["1 ab"] 4 "1 ab" (by decide)
    (by decide) (by decide)

end AfsUtil
